import Mathlib

/-!
# Verification of the websitewatcher watch-processing pipeline

Shallow embedding of the Go sources `main.go` (function `processWatch` and the
per-watch task body of `run`) and `internal/http/http.go` (functions `fetchURL`,
`isSoftError`, `GetRequest`).

Modelling conventions:
* Go byte slices (`[]byte`) are `List Nat`; a `nil` slice is modelled as `[]`.
* Go `int` and `time.Duration` (int64 nanoseconds) are `Int`.
* Go `map[string][]string` response headers are association lists.
* The network is an environment delivering one `NetEvent` per attempt, and a
  flag saying whether the shared context gets cancelled during the retry wait
  following a given attempt.
* External collaborators that are not part of the repository (the `regexp`
  standard library, the diff API, `html.EscapeString`, Go duration formatting,
  byte-to-string decoding and the mail transport) are abstract function fields
  of an environment record; the snapshot database (`internal/database`, not in
  the sources) is modelled from its spec interface `get(key) → content|absent`,
  `set(key, content)`.
-/

namespace WebsiteWatcher

/-- Go `[]byte`, with `nil` modelled as the empty list. -/
abbrev Bytes := List Nat

/-- Go `map[string][]string` (http headers), as an association list. -/
abbrev Headers := List (String × List String)

/-- Byte encoding of an ASCII string literal, as in Go `[]byte("...")`.
For ASCII strings the Unicode code points coincide with the UTF-8 bytes. -/
def strBytes (s : String) : Bytes := s.data.map Char.toNat

/-- Go `bytes.Contains hay needle`: `needle` occurs as a contiguous run in `hay`. -/
def bytesContains (hay needle : Bytes) : Bool :=
  match hay with
  | [] => needle.isEmpty
  | hd :: rest => needle.isPrefixOf (hd :: rest) || bytesContains rest needle

/-- `http.go` `isSoftError`: the three soft-error body signatures. -/
def softErrorSig1 : Bytes := strBytes "504 - Gateway Time-out"

def softErrorSig2 : Bytes := strBytes "404 - Not Found"

def softErrorSig3 : Bytes := strBytes "503 - Service Unavailable"

/-- `http.go` lines 86-98: `isSoftError(body []byte) bool`. -/
def isSoftError (body : Bytes) : Bool :=
  if body.length = 0 then
    false
  else if bytesContains body softErrorSig1 ||
      bytesContains body softErrorSig2 ||
      bytesContains body softErrorSig3 then
    true
  else
    false

/-- The classified errors a single fetch attempt or `GetRequest` can produce,
one constructor per `return`-with-error site in `http.go`. -/
inductive FetchErr where
  /-- `InvalidResponseError` carrying status code, headers and body. -/
  | invalidResponse (statusCode : Int) (header : Headers) (body : Bytes)
  /-- `http.NewRequestWithContext` failed. -/
  | requestCreate
  /-- `c.Do(req)` failed; the wrapped `*url.Error` reports `Timeout()` iff `isTimeout`. -/
  | transport (isTimeout : Bool)
  /-- `io.ReadAll(resp.Body)` failed. -/
  | readBody
  /-- `ctx.Err()` returned from the retry wait. -/
  | ctxCancelled
  deriving DecidableEq, Repr

/-- What the network does on one attempt of `fetchURL`. -/
inductive NetEvent where
  | reqError
  | transportError (isTimeout : Bool)
  | readError
  | response (statusCode : Int) (header : Headers) (body : Bytes) (durationNs : Int)
  deriving DecidableEq, Repr

/-- The five return values of `fetchURL` / `GetRequest`:
`(int, map[string][]string, time.Duration, []byte, error)`. -/
structure FetchRet where
  statusCode : Int
  header : Headers
  durationNs : Int
  body : Bytes
  err : Option FetchErr
  deriving DecidableEq, Repr

/-- `http.go` lines 55-84: `fetchURL` classifies one attempt's network event. -/
def fetchURL : NetEvent → FetchRet
  | .reqError => ⟨-1, [], -1, [], some .requestCreate⟩
  | .transportError t => ⟨-1, [], -1, [], some (.transport t)⟩
  | .readError => ⟨-1, [], -1, [], some .readBody⟩
  | .response s h b d =>
    if s != 200 || b.length == 0 || isSoftError b then
      ⟨-1, [], d, [], some (.invalidResponse s h b)⟩
    else
      ⟨s, h, d, b, none⟩

/-- The fields of `HTTPClient` that `GetRequest` reads. -/
structure HTTPClient where
  retries : Int
  retryDelayNs : Int

/-- The network environment for a `GetRequest` call: the event observed by
attempt `i` (attempts are numbered from 1 as in the Go loop), and whether the
context is cancelled during the retry wait that follows attempt `i`. -/
structure NetEnv where
  events : Nat → NetEvent
  cancelledDuringWait : Nat → Bool

/-- Result of `GetRequest` plus instrumentation: how many fetch attempts were
made and how many full `retryDelay` waits completed. -/
structure GetReqResult where
  ret : FetchRet
  attemptsMade : Nat
  waits : Nat
  deriving DecidableEq, Repr

/-- The loop body of `GetRequest` (`http.go` lines 107-131), recursing on the
number of remaining attempts; `i` is the Go loop counter. The `0` case is never
reached from `GetRequest` (which only calls it with at least one attempt left)
and models the loop being skipped with all variables at their zero values. -/
def grLoop (retryDelayNs : Int) (env : NetEnv) (i : Nat) : Nat → GetReqResult
  | 0 => ⟨⟨0, [], 0, [], none⟩, 0, 0⟩
  | remaining + 1 =>
    let f := fetchURL (env.events i)
    match f.err with
    | none => ⟨f, 1, 0⟩
    | some e =>
      if remaining = 0 then
        ⟨⟨-1, [], -1, [], some e⟩, 1, 0⟩
      else if 0 < retryDelayNs then
        if env.cancelledDuringWait i then
          ⟨⟨-1, [], -1, [], some .ctxCancelled⟩, 1, 0⟩
        else
          let r := grLoop retryDelayNs env (i + 1) remaining
          ⟨r.ret, r.attemptsMade + 1, r.waits + 1⟩
      else
        let r := grLoop retryDelayNs env (i + 1) remaining
        ⟨r.ret, r.attemptsMade + 1, r.waits⟩

/-- `http.go` lines 100-139: `GetRequest`. When `retries ≤ 0` the Go `for` loop
body never runs and the zero values `(0, nil, 0, nil, nil)` are returned. -/
def GetRequest (c : HTTPClient) (env : NetEnv) : GetReqResult :=
  if c.retries ≤ 0 then ⟨⟨0, [], 0, [], none⟩, 0, 0⟩
  else grLoop c.retryDelayNs env 1 c.retries.toNat

/-! ## The per-watch pipeline of `main.go` -/

/-- One entry of `watch.Replaces`: a pattern and its replacement string. -/
structure Replace where
  pattern : String
  replaceWith : String
  deriving DecidableEq, Repr

/-- The fields of `config.Watch` read by `processWatch`. -/
structure Watch where
  name : String
  url : String
  pattern : String
  replaces : List Replace
  additionalHTTPErrorsToIgnore : List Int
  deriving DecidableEq, Repr

/-- The fields of the global configuration read by `processWatch`. -/
structure Config where
  httpErrorsToIgnore : List Int
  deriving DecidableEq, Repr

/-- A compiled regular expression of Go's `regexp` standard library (an
external library, modelled abstractly): `FindSubmatch` returns the whole match
followed by the capture groups (`[]` when there is no match, matching Go's
`nil`), and `ReplaceAll` performs the global substitution. -/
structure Re where
  findSubmatch : Bytes → List Bytes
  replaceAll : Bytes → Bytes → Bytes

/-- Abstract interface to `regexp.Compile`: `none` models a compile error. -/
structure RegexEngine where
  compile : String → Option Re

/-- The errors `processWatch` can return, one constructor per
`return`-with-error site in `main.go` lines 151-249. -/
inductive ProcErr where
  /-- a `GetRequest` error hit the `default` case of the switch and is returned. -/
  | fetch (e : FetchErr)
  /-- `could not compile pattern %s`. -/
  | patternCompile (pat : String)
  /-- `pattern %s did not match %s`. -/
  | patternNoMatch (pat : String)
  /-- `could not compile replace pattern %s`. -/
  | replaceCompile (pat : String)
  /-- `error on creating htmlcontent`. -/
  | htmlContent
  /-- `error on sending email`. -/
  | sendEmail
  deriving DecidableEq, Repr

/-- The spec's `ProcessingOutcome`: which terminal branch of `processWatch`
(together with the scheduler's error handler) was taken. -/
inductive Outcome where
  | newResource
  | unchanged
  | changed
  | ignoredError
  | reportedError
  | fatalError
  deriving DecidableEq, Repr

/-- One `SendHTMLEmail` call: the watch it is about, subject and HTML body. -/
structure Email where
  watchName : String
  subject : String
  htmlBody : String
  deriving DecidableEq, Repr

/-- Abstract environment of external collaborators used by `processWatch`:
the regexp engine, `diff.DiffAPI` (returns css and html, or fails),
`html.EscapeString`, Go's millisecond-rounded duration formatting, Go's
byte-slice-to-string decoding, and the mail transport `SendHTMLEmail`. -/
structure ProcEnv where
  regex : RegexEngine
  diffAPI : String → String → Except Unit (String × String)
  escapeString : String → String
  formatDurationMs : Int → String
  bytesToString : Bytes → String
  sendHTMLEmail : Email → Except Unit Unit

/-- The snapshot database: a mapping from URL to last stored content. -/
abbrev DB := List (String × Bytes)

/-- Modelled from the spec: the snapshot-store collaborator operation
`get(key) → content|absent` (`internal/database` is not among the sources;
`GetDatabaseEntry` returns `nil` for a URL never stored). -/
def GetDatabaseEntry (db : DB) (url : String) : Option Bytes :=
  (db.find? (fun kv => kv.1 == url)).map (fun kv => kv.2)

/-- Modelled from the spec: the snapshot-store collaborator operation
`set(key, content)` (`internal/database` is not among the sources;
`SetDatabaseEntry` overwrites the entry for `url`, creating it if absent). -/
def SetDatabaseEntry (db : DB) (url : String) (content : Bytes) : DB :=
  match db with
  | [] => [(url, content)]
  | kv :: rest =>
    if kv.1 == url then (url, content) :: rest
    else kv :: SetDatabaseEntry rest url content

/-- `main.go` lines 66-72: `formatHeaders`, iterating the header map in the
order of the association list. -/
def formatHeaders (header : Headers) : String :=
  header.foldl
    (fun sb kv => sb ++ kv.1 ++ ": " ++ String.intercalate ", " kv.2 ++ "\n") ""

/-- `main.go` lines 51-64: `generateHTMLContentForEmail`; `.error ()` models
the propagated `diff.DiffAPI` error. -/
def generateHTMLContentForEmail (env : ProcEnv) (body : String)
    (includeDiff : Bool) (text1 text2 : String) : Except Unit String :=
  let body := body.replace "\n" "<br>\n"
  if includeDiff then
    match env.diffAPI text1 text2 with
    | .error _ => .error ()
    | .ok (css, htmlPart) =>
      .ok ("<html><head><style>" ++ css ++ "</style></head><body>" ++ body ++
        "<br><br>\n" ++ htmlPart ++ "</body></html>")
  else
    .ok ("<html><body>" ++ body ++ "</body></html>")

/-- `main.go` lines 210-218: the replacement loop, applying the `Replaces`
entries in declared order; each step is a global `ReplaceAll` of the compiled
pattern by the bytes of the replacement string. -/
def applyReplaces (env : ProcEnv) : List Replace → Bytes → Except ProcErr Bytes
  | [], body => .ok body
  | r :: rest, body =>
    match env.regex.compile r.pattern with
    | none => .error (.replaceCompile r.pattern)
    | some re => applyReplaces env rest (re.replaceAll body (strBytes r.replaceWith))

/-- `main.go` lines 198-218: the extraction step (`watch.Pattern`, first
capture group `match[1]`) followed by the replacement loop. -/
def transformBody (env : ProcEnv) (watch : Watch) (body0 : Bytes) :
    Except ProcErr Bytes :=
  match (if watch.pattern = "" then Except.ok body0
    else match env.regex.compile watch.pattern with
      | none => Except.error (ProcErr.patternCompile watch.pattern)
      | some re =>
        let m := re.findSubmatch body0
        if m.length < 2 then Except.error (ProcErr.patternNoMatch watch.pattern)
        else Except.ok (m.getD 1 [])) with
  | .error e => .error e
  | .ok b1 => applyReplaces env watch.replaces b1

/-- The observable result of one `processWatch` call: the returned Go error
(`none` is `nil`), the `SetDatabaseEntry` calls made, the `SendHTMLEmail`
calls made, whether the test-mode "would send email" log line was emitted
instead of a send, and the spec outcome label of the branch taken. -/
structure ProcResult where
  ret : Option ProcErr
  writes : List (String × Bytes)
  emails : List Email
  loggedChangeOnly : Bool
  outcome : Outcome
  deriving DecidableEq, Repr

/-- `main.go` lines 151-249: `processWatch`, given the result `fetch` of its
`GetRequest` call. -/
def processWatch (cfg : Config) (env : ProcEnv) (testMode : Bool)
    (watch : Watch) (db : DB) (fetch : FetchRet) : ProcResult :=
  let lastContent := GetDatabaseEntry db watch.url
  match fetch.err with
  | some (.invalidResponse s h b) =>
    if cfg.httpErrorsToIgnore.contains s then
      ⟨none, [], [], false, .ignoredError⟩
    else if watch.additionalHTTPErrorsToIgnore.contains s then
      ⟨none, [], [], false, .ignoredError⟩
    else
      let subject := "Invalid response for " ++ watch.name
      let text := "Name: " ++ watch.name ++ "\nURL: " ++ watch.url ++
        "\nRequest Duration: " ++ env.formatDurationMs fetch.durationNs ++
        "\nStatus: " ++ toString s ++ "\nBodylen: " ++ toString b.length ++
        "\nHeader:\n" ++ env.escapeString (formatHeaders h) ++
        "\nBody:\n" ++ env.escapeString (env.bytesToString b)
      match generateHTMLContentForEmail env text false "" "" with
      | .error _ => ⟨some .htmlContent, [], [], false, .fatalError⟩
      | .ok htmlContent =>
        let email : Email := ⟨watch.name, subject, htmlContent⟩
        match env.sendHTMLEmail email with
        | .error _ => ⟨some .sendEmail, [], [email], false, .fatalError⟩
        | .ok _ => ⟨none, [], [email], false, .reportedError⟩
  | some (.transport true) => ⟨none, [], [], false, .ignoredError⟩
  | some e => ⟨some (.fetch e), [], [], false, .fatalError⟩
  | none =>
    match transformBody env watch fetch.body with
    | .error e => ⟨some e, [], [], false, .fatalError⟩
    | .ok body =>
      match lastContent with
      | none => ⟨none, [(watch.url, body)], [], false, .newResource⟩
      | some last =>
        if last == body then
          ⟨none, [(watch.url, body)], [], false, .unchanged⟩
        else if testMode then
          ⟨none, [(watch.url, body)], [], true, .changed⟩
        else
          let subject := "Detected change on " ++ watch.name
          let text := "Name: " ++ watch.name ++ "\nURL: " ++ watch.url ++
            "\nRequest Duration: " ++ env.formatDurationMs fetch.durationNs ++
            "\nStatus: " ++ toString fetch.statusCode ++
            "\nBodylen: " ++ toString body.length
          match generateHTMLContentForEmail env text true
              (env.bytesToString last) (env.bytesToString body) with
          | .error _ => ⟨some .htmlContent, [], [], false, .fatalError⟩
          | .ok htmlContent =>
            let email : Email := ⟨watch.name, subject, htmlContent⟩
            match env.sendHTMLEmail email with
            | .error _ => ⟨some .sendEmail, [], [email], false, .fatalError⟩
            | .ok _ => ⟨none, [(watch.url, body)], [email], false, .changed⟩

/-- Result of one scheduler task (`main.go` lines 125-137): the `processWatch`
result plus the `SendErrorEmail` attempts made by the error handler. -/
structure TaskResult where
  proc : ProcResult
  errorEmailAttempts : List String
  deriving DecidableEq, Repr

/-- The body of the per-watch goroutine in `run` (`main.go` lines 125-137):
on a non-nil `processWatch` error the scheduler logs it and attempts one
generic `SendErrorEmail` for the watch. -/
def runWatchTask (cfg : Config) (env : ProcEnv) (testMode : Bool)
    (watch : Watch) (db : DB) (fetch : FetchRet) : TaskResult :=
  let r := processWatch cfg env testMode watch db fetch
  match r.ret with
  | none => ⟨r, []⟩
  | some _ => ⟨r, [watch.name]⟩

/-- Replay a list of recorded `SetDatabaseEntry` calls against a database. -/
def applyWrites (db : DB) (ws : List (String × Bytes)) : DB :=
  ws.foldl (fun d kv => SetDatabaseEntry d kv.1 kv.2) db

/-- A regex engine on which every compile fails; used to instantiate theorems
at inputs that never exercise the engine. -/
def trivialRegexEngine : RegexEngine := ⟨fun _ => none⟩

/-- A concrete collaborator environment: the diff API and the mail transport
always succeed and the formatters return fixed strings. -/
def okProcEnv : ProcEnv :=
  ⟨trivialRegexEngine, fun _ _ => .ok ("", ""), id, fun _ => "", fun _ => "",
    fun _ => .ok ()⟩

/-- A concrete collaborator environment whose mail transport always fails. -/
def mailFailProcEnv : ProcEnv :=
  ⟨trivialRegexEngine, fun _ _ => .ok ("", ""), id, fun _ => "", fun _ => "",
    fun _ => .error ()⟩

/-! ## Theorems -/

/-- One-step unfolding of the retry loop. -/
theorem grLoop_succ_eq (dNs : Int) (env : NetEnv) (i rem : Nat) :
    grLoop dNs env i (rem + 1) =
      match (fetchURL (env.events i)).err with
      | none => ⟨fetchURL (env.events i), 1, 0⟩
      | some e =>
        if rem = 0 then ⟨⟨-1, [], -1, [], some e⟩, 1, 0⟩
        else if 0 < dNs then
          if env.cancelledDuringWait i then
            ⟨⟨-1, [], -1, [], some .ctxCancelled⟩, 1, 0⟩
          else
            let r := grLoop dNs env (i + 1) rem
            ⟨r.ret, r.attemptsMade + 1, r.waits + 1⟩
        else
          let r := grLoop dNs env (i + 1) rem
          ⟨r.ret, r.attemptsMade + 1, r.waits⟩ := rfl

/-- If every attempt fails and the context is never cancelled, the retry loop
makes all `n + 1` remaining attempts, completes `n` waits when the delay is
positive (none otherwise), and ends with the last attempt's error. -/
theorem grLoop_all_fail (dNs : Int) (env : NetEnv)
    (hfail : ∀ j, (fetchURL (env.events j)).err.isSome = true)
    (hnc : ∀ j, env.cancelledDuringWait j = false) :
    ∀ n i, grLoop dNs env i (n + 1) =
      ⟨⟨-1, [], -1, [], (fetchURL (env.events (i + n))).err⟩, n + 1,
        if 0 < dNs then n else 0⟩ := by
  intro n
  induction n with
  | zero =>
    intro i
    obtain ⟨e, he⟩ := Option.isSome_iff_exists.mp (hfail i)
    rw [grLoop_succ_eq dNs env i 0]
    simp [he]
  | succ m ih =>
    intro i
    obtain ⟨e, he⟩ := Option.isSome_iff_exists.mp (hfail i)
    have harith : i + 1 + m = i + (m + 1) := by omega
    rw [grLoop_succ_eq dNs env i (m + 1)]
    by_cases hd : 0 < dNs
    · simp [he, hnc, hd, ih, harith]
    · simp [he, hnc, hd, ih, harith]

/-- If the first `t` attempts starting at `i` fail, the context is never
cancelled, and attempt `i + t` succeeds, the retry loop stops at that success
after `t + 1` attempts and `t` completed waits (when the delay is positive). -/
theorem grLoop_first_success (dNs : Int) (env : NetEnv)
    (hnc : ∀ j, env.cancelledDuringWait j = false) :
    ∀ t n i, t ≤ n →
      (∀ j, i ≤ j → j < i + t → (fetchURL (env.events j)).err.isSome = true) →
      (fetchURL (env.events (i + t))).err = none →
      grLoop dNs env i (n + 1) =
        ⟨fetchURL (env.events (i + t)), t + 1, if 0 < dNs then t else 0⟩ := by
  intro t
  induction t with
  | zero =>
    intro n i _ _ hsucc
    simp only [Nat.add_zero] at hsucc ⊢
    rw [grLoop_succ_eq dNs env i n]
    simp [hsucc]
  | succ s ih =>
    intro n i hn hfails hsucc
    obtain ⟨e, he⟩ :=
      Option.isSome_iff_exists.mp (hfails i (Nat.le_refl i) (by omega))
    obtain ⟨k, hk⟩ : ∃ k, n = k + 1 := ⟨n - 1, by omega⟩
    subst hk
    have hfails2 : ∀ j, i + 1 ≤ j → j < i + 1 + s →
        (fetchURL (env.events j)).err.isSome = true := by
      intro j h1 h2
      exact hfails j (by omega) (by omega)
    have hsucc2 : (fetchURL (env.events (i + 1 + s))).err = none := by
      have : i + 1 + s = i + (s + 1) := by omega
      rw [this]
      exact hsucc
    have hrec := ih k (i + 1) (by omega) hfails2 hsucc2
    have harith : i + 1 + s = i + (s + 1) := by omega
    rw [harith] at hrec
    rw [grLoop_succ_eq dNs env i (k + 1)]
    by_cases hd : 0 < dNs
    · simp [he, hnc, hd, hrec]
    · simp [he, hnc, hd, hrec]

/-- If the first `t + 1` attempts starting at `i` fail, the delay is positive,
the context survives the first `t` waits but is cancelled during the wait
following attempt `i + t`, the retry loop aborts with the cancellation error
after `t + 1` attempts and `t` completed waits. -/
theorem grLoop_cancelled (dNs : Int) (env : NetEnv) (hd : 0 < dNs) :
    ∀ t n i, t < n →
      (∀ j, i ≤ j → j ≤ i + t → (fetchURL (env.events j)).err.isSome = true) →
      (∀ j, i ≤ j → j < i + t → env.cancelledDuringWait j = false) →
      env.cancelledDuringWait (i + t) = true →
      grLoop dNs env i (n + 1) =
        ⟨⟨-1, [], -1, [], some .ctxCancelled⟩, t + 1, t⟩ := by
  intro t
  induction t with
  | zero =>
    intro n i hn hfails _ hcanc
    obtain ⟨e, he⟩ :=
      Option.isSome_iff_exists.mp (hfails i (Nat.le_refl i) (by omega))
    simp only [Nat.add_zero] at hcanc
    obtain ⟨k, hk⟩ : ∃ k, n = k + 1 := ⟨n - 1, by omega⟩
    subst hk
    rw [grLoop_succ_eq dNs env i (k + 1)]
    simp [he, hd, hcanc]
  | succ s ih =>
    intro n i hn hfails hncs hcanc
    obtain ⟨e, he⟩ :=
      Option.isSome_iff_exists.mp (hfails i (Nat.le_refl i) (by omega))
    obtain ⟨k, hk⟩ : ∃ k, n = k + 1 := ⟨n - 1, by omega⟩
    subst hk
    have hfails2 : ∀ j, i + 1 ≤ j → j ≤ i + 1 + s →
        (fetchURL (env.events j)).err.isSome = true := by
      intro j h1 h2
      exact hfails j (by omega) (by omega)
    have hncs2 : ∀ j, i + 1 ≤ j → j < i + 1 + s →
        env.cancelledDuringWait j = false := by
      intro j h1 h2
      exact hncs j (by omega) (by omega)
    have hcanc2 : env.cancelledDuringWait (i + 1 + s) = true := by
      have : i + 1 + s = i + (s + 1) := by omega
      rw [this]
      exact hcanc
    have hrec := ih k (i + 1) (by omega) hfails2 hncs2 hcanc2
    have hnci : env.cancelledDuringWait i = false :=
      hncs i (Nat.le_refl i) (by omega)
    rw [grLoop_succ_eq dNs env i (k + 1)]
    simp [he, hd, hnci, hrec]

/-- C4: `GetRequest` makes up to `retries` fetch attempts and stops early on
the first success; when every attempt fails it makes exactly `retries`
attempts and returns the last attempt's error, completing a `retryDelay` wait
between consecutive attempts exactly when `retryDelay > 0` (never after the
final attempt, and none at all when `retryDelay` is 0); a cancellation
arriving during a wait aborts immediately with the cancellation error. -/
theorem getRequest_retry_policy :
    (∀ (c : HTTPClient) (env : NetEnv),
      1 ≤ c.retries →
      (∀ j, (fetchURL (env.events j)).err.isSome = true) →
      (∀ j, env.cancelledDuringWait j = false) →
      GetRequest c env =
        ⟨⟨-1, [], -1, [], (fetchURL (env.events c.retries.toNat)).err⟩,
          c.retries.toNat,
          if 0 < c.retryDelayNs then c.retries.toNat - 1 else 0⟩) ∧
    (∀ (c : HTTPClient) (env : NetEnv) (k : Nat),
      1 ≤ k → (k : Int) ≤ c.retries →
      (∀ j, 1 ≤ j → j < k → (fetchURL (env.events j)).err.isSome = true) →
      (∀ j, env.cancelledDuringWait j = false) →
      (fetchURL (env.events k)).err = none →
      GetRequest c env =
        ⟨fetchURL (env.events k), k, if 0 < c.retryDelayNs then k - 1 else 0⟩) ∧
    (∀ (c : HTTPClient) (env : NetEnv) (k : Nat),
      1 ≤ k → (k : Int) < c.retries → 0 < c.retryDelayNs →
      (∀ j, 1 ≤ j → j ≤ k → (fetchURL (env.events j)).err.isSome = true) →
      (∀ j, j < k → env.cancelledDuringWait j = false) →
      env.cancelledDuringWait k = true →
      GetRequest c env = ⟨⟨-1, [], -1, [], some .ctxCancelled⟩, k, k - 1⟩) := by
  refine ⟨?_, ?_, ?_⟩
  · intro c env hr hfail hnc
    have hpos : ¬c.retries ≤ 0 := by omega
    obtain ⟨n, hn⟩ : ∃ n, c.retries.toNat = n + 1 := ⟨c.retries.toNat - 1, by omega⟩
    unfold GetRequest
    rw [if_neg hpos, hn, grLoop_all_fail c.retryDelayNs env hfail hnc n 1]
    have h1 : 1 + n = n + 1 := by omega
    have h2 : n + 1 - 1 = n := by omega
    rw [h1, h2]
  · intro c env k hk1 hkr hfails hnc hsucc
    have hpos : ¬c.retries ≤ 0 := by omega
    obtain ⟨n, hn⟩ : ∃ n, c.retries.toNat = n + 1 := ⟨c.retries.toNat - 1, by omega⟩
    have hkn : k - 1 ≤ n := by omega
    have hfails2 : ∀ j, 1 ≤ j → j < 1 + (k - 1) →
        (fetchURL (env.events j)).err.isSome = true := by
      intro j h1 h2
      exact hfails j h1 (by omega)
    have hsucc2 : (fetchURL (env.events (1 + (k - 1)))).err = none := by
      have : 1 + (k - 1) = k := by omega
      rw [this]
      exact hsucc
    unfold GetRequest
    rw [if_neg hpos, hn,
      grLoop_first_success c.retryDelayNs env hnc (k - 1) n 1 hkn hfails2 hsucc2]
    have h1 : 1 + (k - 1) = k := by omega
    have h2 : k - 1 + 1 = k := by omega
    rw [h1, h2]
  · intro c env k hk1 hkr hd hfails hncs hcanc
    have hpos : ¬c.retries ≤ 0 := by omega
    obtain ⟨n, hn⟩ : ∃ n, c.retries.toNat = n + 1 := ⟨c.retries.toNat - 1, by omega⟩
    have hkn : k - 1 < n := by omega
    have hfails2 : ∀ j, 1 ≤ j → j ≤ 1 + (k - 1) →
        (fetchURL (env.events j)).err.isSome = true := by
      intro j h1 h2
      exact hfails j h1 (by omega)
    have hncs2 : ∀ j, 1 ≤ j → j < 1 + (k - 1) →
        env.cancelledDuringWait j = false := by
      intro j _ h2
      exact hncs j (by omega)
    have hcanc2 : env.cancelledDuringWait (1 + (k - 1)) = true := by
      have : 1 + (k - 1) = k := by omega
      rw [this]
      exact hcanc
    unfold GetRequest
    rw [if_neg hpos, hn,
      grLoop_cancelled c.retryDelayNs env hd (k - 1) n 1 hkn hfails2 hncs2 hcanc2]
    have h2 : k - 1 + 1 = k := by omega
    rw [h2]

/-- Witness for C4: two failing attempts, no delay, no cancellation. -/
theorem getRequest_retry_policy_witness :
    GetRequest ⟨2, 0⟩ ⟨fun _ => .transportError false, fun _ => false⟩ =
      ⟨⟨-1, [], -1, [],
        (fetchURL ((fun _ => NetEvent.transportError false) ((2 : Int).toNat))).err⟩,
        (2 : Int).toNat, if (0 : Int) < 0 then (2 : Int).toNat - 1 else 0⟩ :=
  getRequest_retry_policy.1 ⟨2, 0⟩ ⟨fun _ => .transportError false, fun _ => false⟩
    (by decide) (fun j => rfl) (fun j => rfl)

/-- C5: `fetchURL` classifies a received response as a hard error if and only
if the status code is not 200, or the body is empty, or the body contains one
of the soft-error signatures; in that case it returns an
`InvalidResponseError` carrying the response's status code, headers and body;
otherwise it returns the status, headers, duration and non-empty body with no
error. -/
theorem fetchURL_classification (s : Int) (h : Headers) (b : Bytes) (d : Int) :
    ((fetchURL (.response s h b d)).err.isSome ↔
      (s ≠ 200 ∨ b = [] ∨ isSoftError b = true)) ∧
    ((s ≠ 200 ∨ b = [] ∨ isSoftError b = true) →
      fetchURL (.response s h b d) =
        ⟨-1, [], d, [], some (.invalidResponse s h b)⟩) ∧
    (¬(s ≠ 200 ∨ b = [] ∨ isSoftError b = true) →
      fetchURL (.response s h b d) = ⟨s, h, d, b, none⟩ ∧ b ≠ []) := by
  unfold fetchURL
  by_cases hc : s ≠ 200 ∨ b = [] ∨ isSoftError b = true
  · have hb : (s != 200 || b.length == 0 || isSoftError b) = true := by
      rcases hc with h1 | h1 | h1
      · simp [h1]
      · simp [h1]
      · simp [h1]
    simp only [hb, if_true]
    refine ⟨by simpa using hc, fun _ => trivial, fun hn => absurd hc hn⟩
  · push_neg at hc
    obtain ⟨h1, h2, h3⟩ := hc
    have hb : (s != 200 || b.length == 0 || isSoftError b) = false := by
      simp only [Bool.or_eq_false_iff, bne_eq_false_iff_eq, beq_eq_false_iff_ne]
      refine ⟨⟨h1, ?_⟩, by simpa using h3⟩
      simpa [List.length_eq_zero] using h2
    simp only [hb, Bool.false_eq_true, if_false]
    refine ⟨by simp [h1, h2, h3], fun hcon => ?_, fun _ => ⟨trivial, h2⟩⟩
    rcases hcon with hx | hx | hx
    · exact absurd h1 (fun h => hx h)
    · exact absurd hx h2
    · exact absurd hx (by simpa using h3)

/-- Witness for C5 at a concrete healthy response. -/
theorem fetchURL_classification_witness :
    fetchURL (.response 200 [] [104, 105] 7) = ⟨200, [], 7, [104, 105], none⟩ ∧
    ([104, 105] : Bytes) ≠ [] :=
  (fetchURL_classification 200 [] [104, 105] 7).2.2 (by decide)

/-- C10: if the configured `retries` value is 0 or negative, `GetRequest`
performs no fetch attempt and returns a nil error with status code 0, nil
headers, zero duration and a nil body (nil modelled as `[]`); that body then
flows into change detection as fetched content: with no extraction pattern, no
replaces and no prior snapshot entry, `processWatch` stores it as a new
resource. -/
theorem getRequest_zero_retries (c : HTTPClient) (netEnv : NetEnv)
    (cfg : Config) (env : ProcEnv) (testMode : Bool) (watch : Watch) (db : DB)
    (hr : c.retries ≤ 0)
    (hp : watch.pattern = "") (hrep : watch.replaces = [])
    (hdb : GetDatabaseEntry db watch.url = none) :
    GetRequest c netEnv = ⟨⟨0, [], 0, [], none⟩, 0, 0⟩ ∧
    processWatch cfg env testMode watch db (GetRequest c netEnv).ret =
      ⟨none, [(watch.url, [])], [], false, .newResource⟩ := by
  have h1 : GetRequest c netEnv = ⟨⟨0, [], 0, [], none⟩, 0, 0⟩ := by
    unfold GetRequest
    rw [if_pos hr]
  refine ⟨h1, ?_⟩
  rw [h1]
  unfold processWatch
  simp [transformBody, hp, hrep, applyReplaces, hdb]

/-- Looking a key up right after setting it returns the stored content. -/
theorem getEntry_after_set (db : DB) (url : String) (content : Bytes) :
    GetDatabaseEntry (SetDatabaseEntry db url content) url = some content := by
  induction db with
  | nil => simp [SetDatabaseEntry, GetDatabaseEntry]
  | cons kv rest ih =>
    by_cases h : kv.1 = url
    · simp [SetDatabaseEntry, GetDatabaseEntry, h]
    · have hb : (kv.1 == url) = false := by simpa using h
      simp only [SetDatabaseEntry, hb, Bool.false_eq_true, if_false]
      simp only [GetDatabaseEntry, List.find?, hb] at ih ⊢
      exact ih

/-- Shared reduction of `processWatch` on the unchanged path: successful fetch,
successful transform, prior entry byte-equal to the transformed body. -/
theorem processWatch_unchanged_aux (cfg : Config) (env : ProcEnv)
    (testMode : Bool) (watch : Watch) (db : DB) (fetch : FetchRet)
    (tbody : Bytes)
    (hfe : fetch.err = none)
    (ht : transformBody env watch fetch.body = .ok tbody)
    (hl : GetDatabaseEntry db watch.url = some tbody) :
    processWatch cfg env testMode watch db fetch =
      ⟨none, [(watch.url, tbody)], [], false, .unchanged⟩ := by
  simp [processWatch, hfe, ht, hl]

/-- C2: with no prior snapshot entry, a successful fetch and transform yields
outcome `NewResource`: the transformed body is stored under the watch's URL
and no notification is sent, regardless of the fetched content. -/
theorem processWatch_newResource (cfg : Config) (env : ProcEnv)
    (testMode : Bool) (watch : Watch) (db : DB) (fetch : FetchRet)
    (tbody : Bytes)
    (hfe : fetch.err = none)
    (ht : transformBody env watch fetch.body = .ok tbody)
    (hl : GetDatabaseEntry db watch.url = none) :
    processWatch cfg env testMode watch db fetch =
      ⟨none, [(watch.url, tbody)], [], false, .newResource⟩ := by
  simp [processWatch, hfe, ht, hl]

/-- Witness for C2 at a concrete fresh watch. -/
theorem processWatch_newResource_witness :
    processWatch ⟨[]⟩ okProcEnv false ⟨"w", "u", "", [], []⟩ []
      ⟨200, [], 5, [50], none⟩ = ⟨none, [("u", [50])], [], false, .newResource⟩ :=
  processWatch_newResource ⟨[]⟩ okProcEnv false ⟨"w", "u", "", [], []⟩ []
    ⟨200, [], 5, [50], none⟩ [50] rfl rfl rfl

/-- C3: with a prior snapshot entry byte-equal to the transformed content, the
outcome is `Unchanged`: no notification is sent and the store entry is
rewritten with the identical bytes, so the lookup after the write returns what
it returned before. -/
theorem processWatch_unchanged (cfg : Config) (env : ProcEnv)
    (testMode : Bool) (watch : Watch) (db : DB) (fetch : FetchRet)
    (tbody : Bytes)
    (hfe : fetch.err = none)
    (ht : transformBody env watch fetch.body = .ok tbody)
    (hl : GetDatabaseEntry db watch.url = some tbody) :
    processWatch cfg env testMode watch db fetch =
      ⟨none, [(watch.url, tbody)], [], false, .unchanged⟩ ∧
    GetDatabaseEntry (applyWrites db [(watch.url, tbody)]) watch.url =
      GetDatabaseEntry db watch.url := by
  refine ⟨processWatch_unchanged_aux cfg env testMode watch db fetch tbody hfe ht hl, ?_⟩
  simp [applyWrites, getEntry_after_set, hl]

/-- Witness for C3 at a concrete watch whose stored entry equals the fetch. -/
theorem processWatch_unchanged_witness :
    processWatch ⟨[]⟩ okProcEnv false ⟨"w", "u", "", [], []⟩ [("u", [50])]
      ⟨200, [], 5, [50], none⟩ = ⟨none, [("u", [50])], [], false, .unchanged⟩ ∧
    GetDatabaseEntry (applyWrites [("u", [50])] [("u", [50])]) "u" =
      GetDatabaseEntry [("u", [50])] "u" :=
  processWatch_unchanged ⟨[]⟩ okProcEnv false ⟨"w", "u", "", [], []⟩ [("u", [50])]
    ⟨200, [], 5, [50], none⟩ [50] rfl rfl rfl

/-- C1: with a prior snapshot entry that differs from the transformed content,
the outcome is `Changed`: exactly one change notification is attempted — in
test/dry-run mode it is only logged — and the store entry is updated to the
new transformed content, in dry-run mode as well. -/
theorem processWatch_changed (cfg : Config) (env : ProcEnv) (testMode : Bool)
    (watch : Watch) (db : DB) (fetch : FetchRet) (last tbody : Bytes)
    (hfe : fetch.err = none)
    (ht : transformBody env watch fetch.body = .ok tbody)
    (hl : GetDatabaseEntry db watch.url = some last)
    (hne : last ≠ tbody)
    (hdiff : ∀ t1 t2, ∃ p, env.diffAPI t1 t2 = Except.ok p)
    (hmail : ∀ e, env.sendHTMLEmail e = Except.ok ()) :
    (processWatch cfg env testMode watch db fetch).outcome = .changed ∧
    (processWatch cfg env testMode watch db fetch).ret = none ∧
    (processWatch cfg env testMode watch db fetch).writes = [(watch.url, tbody)] ∧
    (testMode = true →
      (processWatch cfg env testMode watch db fetch).emails = [] ∧
      (processWatch cfg env testMode watch db fetch).loggedChangeOnly = true) ∧
    (testMode = false →
      (processWatch cfg env testMode watch db fetch).emails.length = 1 ∧
      (processWatch cfg env testMode watch db fetch).loggedChangeOnly = false) := by
  obtain ⟨⟨css, htmlPart⟩, hp⟩ :=
    hdiff (env.bytesToString last) (env.bytesToString tbody)
  cases testMode with
  | true => simp [processWatch, hfe, ht, hl, hne]
  | false =>
    simp [processWatch, generateHTMLContentForEmail, hfe, ht, hl, hne, hp, hmail]

/-- Witness for C1 at a concrete changed watch in production mode. -/
theorem processWatch_changed_witness :
    (processWatch ⟨[]⟩ okProcEnv false ⟨"w", "u", "", [], []⟩ [("u", [49])]
        ⟨200, [], 5, [50], none⟩).outcome = .changed ∧
    (processWatch ⟨[]⟩ okProcEnv false ⟨"w", "u", "", [], []⟩ [("u", [49])]
        ⟨200, [], 5, [50], none⟩).ret = none ∧
    (processWatch ⟨[]⟩ okProcEnv false ⟨"w", "u", "", [], []⟩ [("u", [49])]
        ⟨200, [], 5, [50], none⟩).writes = [("u", [50])] ∧
    ((false : Bool) = true →
      (processWatch ⟨[]⟩ okProcEnv false ⟨"w", "u", "", [], []⟩ [("u", [49])]
        ⟨200, [], 5, [50], none⟩).emails = [] ∧
      (processWatch ⟨[]⟩ okProcEnv false ⟨"w", "u", "", [], []⟩ [("u", [49])]
        ⟨200, [], 5, [50], none⟩).loggedChangeOnly = true) ∧
    ((false : Bool) = false →
      (processWatch ⟨[]⟩ okProcEnv false ⟨"w", "u", "", [], []⟩ [("u", [49])]
        ⟨200, [], 5, [50], none⟩).emails.length = 1 ∧
      (processWatch ⟨[]⟩ okProcEnv false ⟨"w", "u", "", [], []⟩ [("u", [49])]
        ⟨200, [], 5, [50], none⟩).loggedChangeOnly = false) :=
  processWatch_changed ⟨[]⟩ okProcEnv false ⟨"w", "u", "", [], []⟩ [("u", [49])]
    ⟨200, [], 5, [50], none⟩ [49] [50] rfl rfl rfl (by decide)
    (fun t1 t2 => ⟨("", ""), rfl⟩) (fun e => rfl)

/-- Witness for C10: zero retries with a network that would always fail. -/
theorem getRequest_zero_retries_witness :
    GetRequest ⟨0, 5⟩ ⟨fun _ => .reqError, fun _ => false⟩ =
      ⟨⟨0, [], 0, [], none⟩, 0, 0⟩ ∧
    processWatch ⟨[]⟩ okProcEnv false ⟨"w", "u", "", [], []⟩ []
      (GetRequest ⟨0, 5⟩ ⟨fun _ => .reqError, fun _ => false⟩).ret =
      ⟨none, [("u", [])], [], false, .newResource⟩ :=
  getRequest_zero_retries ⟨0, 5⟩ ⟨fun _ => .reqError, fun _ => false⟩ ⟨[]⟩
    okProcEnv false ⟨"w", "u", "", [], []⟩ [] (by decide) rfl rfl rfl

/-- C6: a hard HTTP error whose status code is in the global or the
watch-specific ignore list makes `processWatch` return success with no
notification and no store mutation; a status in neither list leads to exactly
one attempted error notification and still no store mutation. -/
theorem processWatch_invalid_response (cfg : Config) (env : ProcEnv)
    (testMode : Bool) (watch : Watch) (db : DB) (fetch : FetchRet)
    (s : Int) (h : Headers) (b : Bytes)
    (hfe : fetch.err = some (.invalidResponse s h b)) :
    ((cfg.httpErrorsToIgnore.contains s = true ∨
        watch.additionalHTTPErrorsToIgnore.contains s = true) →
      processWatch cfg env testMode watch db fetch =
        ⟨none, [], [], false, .ignoredError⟩) ∧
    (cfg.httpErrorsToIgnore.contains s = false →
      watch.additionalHTTPErrorsToIgnore.contains s = false →
      (processWatch cfg env testMode watch db fetch).emails.length = 1 ∧
      (processWatch cfg env testMode watch db fetch).writes = []) := by
  constructor
  · rintro (hig | hig)
    · have hig2 : s ∈ cfg.httpErrorsToIgnore := by simpa using hig
      simp [processWatch, hfe, hig2]
    · have hig2 : s ∈ watch.additionalHTTPErrorsToIgnore := by simpa using hig
      by_cases hg : s ∈ cfg.httpErrorsToIgnore
      · simp [processWatch, hfe, hg]
      · simp [processWatch, hfe, hg, hig2]
  · intro hg hw
    have hg2 : s ∉ cfg.httpErrorsToIgnore := by simpa using hg
    have hw2 : s ∉ watch.additionalHTTPErrorsToIgnore := by simpa using hw
    refine ⟨?_, ?_⟩ <;>
      · simp only [processWatch, hfe, generateHTMLContentForEmail]
        simp only [Bool.false_eq_true, if_false]
        simp [hg2, hw2]
        split <;> simp

/-- Witness for C6: a 404 not in any ignore list gets one error email and no
store write. -/
theorem processWatch_invalid_response_witness :
    (processWatch ⟨[]⟩ okProcEnv false ⟨"w", "u", "", [], []⟩ []
        ⟨-1, [], 3, [], some (.invalidResponse 404 [] [120])⟩).emails.length = 1 ∧
    (processWatch ⟨[]⟩ okProcEnv false ⟨"w", "u", "", [], []⟩ []
        ⟨-1, [], 3, [], some (.invalidResponse 404 [] [120])⟩).writes = [] :=
  (processWatch_invalid_response ⟨[]⟩ okProcEnv false ⟨"w", "u", "", [], []⟩ []
    ⟨-1, [], 3, [], some (.invalidResponse 404 [] [120])⟩ 404 [] [120] rfl).2
    rfl rfl

/-- C7: a transport-level timeout makes `processWatch` return success with no
notification and no store mutation (outcome `IgnoredError`); any other
transport error is returned to the scheduler, whose task wrapper attempts one
generic error notification and leaves the store untouched. -/
theorem processWatch_timeout_and_transport (cfg : Config) (env : ProcEnv)
    (testMode : Bool) (watch : Watch) (db : DB) (fetch : FetchRet) :
    (fetch.err = some (.transport true) →
      processWatch cfg env testMode watch db fetch =
        ⟨none, [], [], false, .ignoredError⟩) ∧
    (fetch.err = some (.transport false) →
      runWatchTask cfg env testMode watch db fetch =
        ⟨⟨some (.fetch (.transport false)), [], [], false, .fatalError⟩,
          [watch.name]⟩) := by
  constructor
  · intro hfe
    simp [processWatch, hfe]
  · intro hfe
    simp [runWatchTask, processWatch, hfe]

/-- Witness for C7: a concrete timeout is silently ignored. -/
theorem processWatch_timeout_and_transport_witness :
    processWatch ⟨[]⟩ okProcEnv false ⟨"w", "u", "", [], []⟩ []
      ⟨-1, [], -1, [], some (.transport true)⟩ =
      ⟨none, [], [], false, .ignoredError⟩ :=
  (processWatch_timeout_and_transport ⟨[]⟩ okProcEnv false ⟨"w", "u", "", [], []⟩
    [] ⟨-1, [], -1, [], some (.transport true)⟩).1 rfl

/-- C8: if an extraction pattern is configured, a compile failure or a match
with fewer than one capture group is a fatal error for the watch, otherwise
the body becomes the first capture group; replacement pairs are applied in
declared order, each as a global `ReplaceAll` of its compiled pattern by the
replacement string, and an invalid replacement pattern is a fatal error;
every transform error makes `processWatch` return that error with no store
mutation and no notification, whatever the ignore lists contain. -/
theorem processWatch_transform_errors (cfg : Config) (env : ProcEnv)
    (testMode : Bool) (watch : Watch) (db : DB) (fetch : FetchRet)
    (hfe : fetch.err = none) :
    (∀ e, transformBody env watch fetch.body = .error e →
      processWatch cfg env testMode watch db fetch =
        ⟨some e, [], [], false, .fatalError⟩) ∧
    (watch.pattern ≠ "" → env.regex.compile watch.pattern = none →
      transformBody env watch fetch.body =
        .error (.patternCompile watch.pattern)) ∧
    (∀ re, watch.pattern ≠ "" → env.regex.compile watch.pattern = some re →
      (re.findSubmatch fetch.body).length < 2 →
      transformBody env watch fetch.body =
        .error (.patternNoMatch watch.pattern)) ∧
    (∀ re, watch.pattern ≠ "" → env.regex.compile watch.pattern = some re →
      2 ≤ (re.findSubmatch fetch.body).length →
      transformBody env watch fetch.body =
        applyReplaces env watch.replaces ((re.findSubmatch fetch.body).getD 1 [])) ∧
    (∀ r rest body, env.regex.compile r.pattern = none →
      applyReplaces env (r :: rest) body = .error (.replaceCompile r.pattern)) ∧
    (∀ r rest body re, env.regex.compile r.pattern = some re →
      applyReplaces env (r :: rest) body =
        applyReplaces env rest (re.replaceAll body (strBytes r.replaceWith))) := by
  refine ⟨?_, ?_, ?_, ?_, ?_, ?_⟩
  · intro e he
    simp [processWatch, hfe, he]
  · intro hp hc
    simp [transformBody, hp, hc]
  · intro re hp hc hlt
    simp [transformBody, hp, hc, hlt]
  · intro re hp hc hge
    have hnlt : ¬(re.findSubmatch fetch.body).length < 2 := by omega
    simp [transformBody, hp, hc, hnlt]
  · intro r rest body hc
    simp [applyReplaces, hc]
  · intro r rest body re hc
    simp [applyReplaces, hc]

/-- Witness for C8: with a pattern that fails to compile, the watch ends in a
fatal error and nothing is stored or sent. -/
theorem processWatch_transform_errors_witness :
    processWatch ⟨[]⟩ okProcEnv false ⟨"w", "u", "p", [], []⟩ []
      ⟨200, [], 5, [50], none⟩ =
      ⟨some (.patternCompile "p"), [], [], false, .fatalError⟩ :=
  (processWatch_transform_errors ⟨[]⟩ okProcEnv false ⟨"w", "u", "p", [], []⟩ []
    ⟨200, [], 5, [50], none⟩ rfl).1 (.patternCompile "p") rfl

/-- C9 counterexample: a prior snapshot entry is present (`[49]`, "v1") and the
upstream content is stable at `[50]` ("v2") across runs, yet the first run
yields outcome `Changed`, not `Unchanged` — the claim as stated fails when the
pre-existing entry differs from the (stable) fetched content. -/
theorem processWatch_idempotence_counterexample :
    GetDatabaseEntry [("u", [49])] "u" = some [49] ∧
    (processWatch ⟨[]⟩ okProcEnv true ⟨"w", "u", "", [], []⟩ [("u", [49])]
        ⟨200, [], 5, [50], none⟩).outcome = .changed ∧
    Outcome.changed ≠ Outcome.unchanged :=
  ⟨rfl, rfl, by decide⟩

/-- C9 (amended): when additionally the present snapshot entry byte-equals the
transformed content, running the pipeline twice in succession with unchanged
upstream content produces outcome `Unchanged` in both runs, and the stored
bytes for the watch's key equal that same content after each run. -/
theorem processWatch_idempotent_runs (cfg : Config) (env : ProcEnv)
    (testMode : Bool) (watch : Watch) (db : DB) (fetch : FetchRet)
    (tbody : Bytes)
    (hfe : fetch.err = none)
    (ht : transformBody env watch fetch.body = .ok tbody)
    (hl : GetDatabaseEntry db watch.url = some tbody) :
    (processWatch cfg env testMode watch db fetch).outcome = .unchanged ∧
    GetDatabaseEntry
      (applyWrites db (processWatch cfg env testMode watch db fetch).writes)
      watch.url = some tbody ∧
    (processWatch cfg env testMode watch
      (applyWrites db (processWatch cfg env testMode watch db fetch).writes)
      fetch).outcome = .unchanged ∧
    GetDatabaseEntry
      (applyWrites
        (applyWrites db (processWatch cfg env testMode watch db fetch).writes)
        (processWatch cfg env testMode watch
          (applyWrites db (processWatch cfg env testMode watch db fetch).writes)
          fetch).writes)
      watch.url = some tbody := by
  have h1 := processWatch_unchanged_aux cfg env testMode watch db fetch tbody hfe ht hl
  have hdb1 : GetDatabaseEntry (applyWrites db [(watch.url, tbody)]) watch.url =
      some tbody := by
    simp [applyWrites, getEntry_after_set]
  have h2 := processWatch_unchanged_aux cfg env testMode watch
    (applyWrites db [(watch.url, tbody)]) fetch tbody hfe ht hdb1
  refine ⟨by rw [h1], ?_, ?_, ?_⟩
  · simp only [h1]
    exact hdb1
  · simp only [h1]
    rw [h2]
  · simp only [h1, h2]
    simp [applyWrites, getEntry_after_set]

/-- Witness for the amended C9 at a concrete stable watch. -/
theorem processWatch_idempotent_runs_witness :
    (processWatch ⟨[]⟩ okProcEnv false ⟨"w", "u", "", [], []⟩ [("u", [50])]
        ⟨200, [], 5, [50], none⟩).outcome = .unchanged ∧
    GetDatabaseEntry
      (applyWrites [("u", [50])]
        (processWatch ⟨[]⟩ okProcEnv false ⟨"w", "u", "", [], []⟩ [("u", [50])]
          ⟨200, [], 5, [50], none⟩).writes) "u" = some [50] ∧
    (processWatch ⟨[]⟩ okProcEnv false ⟨"w", "u", "", [], []⟩
      (applyWrites [("u", [50])]
        (processWatch ⟨[]⟩ okProcEnv false ⟨"w", "u", "", [], []⟩ [("u", [50])]
          ⟨200, [], 5, [50], none⟩).writes)
      ⟨200, [], 5, [50], none⟩).outcome = .unchanged ∧
    GetDatabaseEntry
      (applyWrites
        (applyWrites [("u", [50])]
          (processWatch ⟨[]⟩ okProcEnv false ⟨"w", "u", "", [], []⟩ [("u", [50])]
            ⟨200, [], 5, [50], none⟩).writes)
        (processWatch ⟨[]⟩ okProcEnv false ⟨"w", "u", "", [], []⟩
          (applyWrites [("u", [50])]
            (processWatch ⟨[]⟩ okProcEnv false ⟨"w", "u", "", [], []⟩ [("u", [50])]
              ⟨200, [], 5, [50], none⟩).writes)
          ⟨200, [], 5, [50], none⟩).writes) "u" = some [50] :=
  processWatch_idempotent_runs ⟨[]⟩ okProcEnv false ⟨"w", "u", "", [], []⟩
    [("u", [50])] ⟨200, [], 5, [50], none⟩ [50] rfl rfl rfl

end WebsiteWatcher
